import Mathlib

/-!
Verification of the layered configuration resolver in
`packages/desktop/src-tauri/src/opencode_config.rs`.

JSON documents (`serde_json::Value`) are modelled by `JValue`, with objects as
association lists whose keys are unique in any value produced by the parser.
Filesystem state is abstracted as an existence predicate `String → Bool`;
functions that write are modelled as pure functions returning the writes they
would perform.  External serialization libraries (YAML) are abstracted as
encoder/decoder parameters, as the design document places their internals out
of scope.
-/

/-- JSON-like values (`serde_json::Value`).  Objects are association lists. -/
inductive JValue where
  | null
  | bool (b : Bool)
  | num (n : Int)
  | str (s : String)
  | arr (xs : List JValue)
  | obj (m : List (String × JValue))

/-- First-occurrence lookup in an association list (`Map::get`). -/
def lookupA : List (String × JValue) → String → Option JValue
  | [], _ => none
  | (k, v) :: rest, key => if k = key then some v else lookupA rest key

/-- Key membership (`Map::contains_key`). -/
def containsA (m : List (String × JValue)) (key : String) : Bool :=
  (lookupA m key).isSome

/-- Insert-or-replace (`Map::insert`), replacing the first occurrence. -/
def insertA : List (String × JValue) → String → JValue → List (String × JValue)
  | [], key, v => [(key, v)]
  | (k, w) :: rest, key, v =>
    if k = key then (k, v) :: rest else (k, w) :: insertA rest key v

/-- Key removal (`Map::remove`), removing the first occurrence. -/
def eraseA : List (String × JValue) → String → List (String × JValue)
  | [], _ => []
  | (k, v) :: rest, key => if k = key then rest else (k, v) :: eraseA rest key

/-- `Value::is_null`. -/
def JValue.isNull : JValue → Bool
  | JValue.null => true
  | _ => false

/-- `Value::is_object`. -/
def JValue.isObj : JValue → Bool
  | JValue.obj _ => true
  | _ => false

/-- `Value::as_object`. -/
def JValue.asObj : JValue → Option (List (String × JValue))
  | JValue.obj m => some m
  | _ => none

/-- `Value::as_str`. -/
def JValue.asStr : JValue → Option String
  | JValue.str s => some s
  | _ => none

/-- `Value::get(key)`: member lookup, `none` on non-objects. -/
def JValue.getKey (v : JValue) (key : String) : Option JValue :=
  match v with
  | JValue.obj m => lookupA m key
  | _ => none

mutual
/-- `merge_values` (opencode_config.rs lines 197-210): two objects merge
key-by-key, any other overlay replaces the base wholesale. -/
def merge_values : JValue → JValue → JValue
  | JValue.obj baseMap, JValue.obj overlayMap => JValue.obj (mergeLoop baseMap overlayMap)
  | _, overlay => overlay
termination_by _ o => sizeOf o

/-- The `for (key, value) in overlay_map` loop inside `merge_values`:
folds each overlay entry into the accumulating map. -/
def mergeLoop : List (String × JValue) → List (String × JValue) → List (String × JValue)
  | merged, [] => merged
  | merged, (key, value) :: rest =>
    mergeLoop (insertA merged key (merge_values ((lookupA merged key).getD JValue.null) value)) rest
termination_by _ o => sizeOf o
end

/-- The three candidate JSON document locations (`ConfigPaths`). -/
structure ConfigPaths where
  user : String
  project : Option String
  custom : Option String

/-- The three loaded JSON documents plus their paths (`ConfigLayers`). -/
structure ConfigLayers where
  user : JValue
  project : JValue
  custom : JValue
  merged : JValue
  paths : ConfigPaths

/-- The merged view computed by `read_config_layers` (line 243):
`merge_values(merge_values(user, project), custom)`. -/
def layersMergedView (user project custom : JValue) : JValue :=
  merge_values (merge_values user project) custom

/-- What `read_config_layers` guarantees about the layers it builds: a layer
whose path is not configured is the empty object. -/
def ConfigLayers.wf (l : ConfigLayers) : Prop :=
  (l.paths.project = none → l.project = JValue.obj []) ∧
  (l.paths.custom = none → l.custom = JValue.obj [])

/-- Result of locating an artifact's JSON entry (`JsonEntrySource`);
`present` models the `exists` field. -/
structure JsonEntrySource where
  present : Bool
  path : Option String
  sectionVal : Option JValue

/-- `layer.get(section_key).and_then(as_object)` followed by
`section.get(entry_name)`: the entry of `entryName` in a layer's section. -/
def sectionLookup (layer : JValue) (sectionKey entryName : String) : Option JValue :=
  ((layer.getKey sectionKey).bind JValue.asObj).bind (fun sec => lookupA sec entryName)

/-- `get_json_entry_source` (lines 260-304): scan custom, then project, then
user for the named entry. -/
def get_json_entry_source (layers : ConfigLayers) (sectionKey entryName : String) :
    JsonEntrySource :=
  match layers.paths.custom, sectionLookup layers.custom sectionKey entryName with
  | some customPath, some value =>
    { present := true, path := some customPath, sectionVal := some value }
  | _, _ =>
    match layers.paths.project, sectionLookup layers.project sectionKey entryName with
    | some projectPath, some value =>
      { present := true, path := some projectPath, sectionVal := some value }
    | _, _ =>
      match sectionLookup layers.user sectionKey entryName with
      | some value =>
        { present := true, path := some layers.paths.user, sectionVal := some value }
      | none => { present := false, path := none, sectionVal := none }

/-- Scope enumeration (`Scope`). -/
inductive Scope where
  | user
  | project
deriving DecidableEq

/-- `get_json_write_target` (lines 306-322): custom path if configured, else
project (the preferred-scope check falls through to the same result), else
user. -/
def get_json_write_target (layers : ConfigLayers) (preferredScope : Option Scope) : String :=
  match layers.paths.custom with
  | some customPath => customPath
  | none =>
    match preferredScope, layers.paths.project with
    | some Scope.project, some projectPath => projectPath
    | _, _ =>
      match layers.paths.project with
      | some projectPath => projectPath
      | none => layers.paths.user

/-- `get_config_for_path` (lines 334-346): which loaded document a target path
refers to (custom first, then project, else user). -/
def get_config_for_path (layers : ConfigLayers) (targetPath : String) : JValue :=
  if layers.paths.custom = some targetPath then layers.custom
  else if layers.paths.project = some targetPath then layers.project
  else layers.user

/-- The character-list form of `str::trim`: drop whitespace from both ends. -/
def trimChars (cs : List Char) : List Char :=
  ((cs.dropWhile Char.isWhitespace).reverse.dropWhile Char.isWhitespace).reverse

/-- `str::trim` on strings. -/
def strTrim (s : String) : String := String.mk (trimChars s.data)

/-- Character-list prefix test (structural model of `str::starts_with`). -/
def isPreChars : List Char → List Char → Bool
  | [], _ => true
  | _ :: _, [] => false
  | p :: ps, c :: cs => (p = c) && isPreChars ps cs

/-- `str::starts_with` on strings. -/
def strStartsWith (s pre : String) : Bool := isPreChars pre.data s.data

/-- Dropping the first `n` characters of a string (`&target[2..]` slicing). -/
def strDrop (s : String) (n : Nat) : String := String.mk (s.data.drop n)

/-- `PathBuf::join` for Unix-style string paths: an absolute second component
replaces the first. -/
def pathJoin (base rel : String) : String :=
  if strStartsWith rel "/" then rel else base ++ "/" ++ rel

/-- `get_config_dir`: `<home>/.config/opencode`. -/
def get_config_dir (home : String) : String := home ++ "/.config/opencode"

/-- `get_agent_dir`: user-level plural agent directory. -/
def get_agent_dir (home : String) : String := get_config_dir home ++ "/agents"

/-- `get_legacy_agent_dir`: user-level singular agent directory. -/
def get_legacy_agent_dir (home : String) : String := get_config_dir home ++ "/agent"

/-- `get_command_dir`: user-level plural command directory. -/
def get_command_dir (home : String) : String := get_config_dir home ++ "/commands"

/-- `get_legacy_command_dir`: user-level singular command directory. -/
def get_legacy_command_dir (home : String) : String := get_config_dir home ++ "/command"

/-- The plural candidate for a user agent file. -/
def user_agent_plural_path (home name : String) : String :=
  get_agent_dir home ++ "/" ++ name ++ ".md"

/-- The legacy (singular) candidate for a user agent file. -/
def user_agent_legacy_path (home name : String) : String :=
  get_legacy_agent_dir home ++ "/" ++ name ++ ".md"

/-- `get_user_agent_path` (lines 508-515), over an existence predicate `fs`:
the legacy path wins only when it exists and the plural does not. -/
def get_user_agent_path (home : String) (fs : String → Bool) (name : String) : String :=
  if fs (user_agent_legacy_path home name) && !fs (user_agent_plural_path home name) then
    user_agent_legacy_path home name
  else user_agent_plural_path home name

/-- The plural candidate for a project agent file. -/
def project_agent_plural_path (wd name : String) : String :=
  wd ++ "/.opencode/agents/" ++ name ++ ".md"

/-- The legacy candidate for a project agent file. -/
def project_agent_legacy_path (wd name : String) : String :=
  wd ++ "/.opencode/agent/" ++ name ++ ".md"

/-- `get_project_agent_path` (lines 497-505). -/
def get_project_agent_path (wd : String) (fs : String → Bool) (name : String) : String :=
  if fs (project_agent_legacy_path wd name) && !fs (project_agent_plural_path wd name) then
    project_agent_legacy_path wd name
  else project_agent_plural_path wd name

/-- The plural candidate for a user command file. -/
def user_command_plural_path (home name : String) : String :=
  get_command_dir home ++ "/" ++ name ++ ".md"

/-- The legacy candidate for a user command file. -/
def user_command_legacy_path (home name : String) : String :=
  get_legacy_command_dir home ++ "/" ++ name ++ ".md"

/-- `get_user_command_path` (lines 592-599). -/
def get_user_command_path (home : String) (fs : String → Bool) (name : String) : String :=
  if fs (user_command_legacy_path home name) && !fs (user_command_plural_path home name) then
    user_command_legacy_path home name
  else user_command_plural_path home name

/-- The plural candidate for a project command file. -/
def project_command_plural_path (wd name : String) : String :=
  wd ++ "/.opencode/commands/" ++ name ++ ".md"

/-- The legacy candidate for a project command file. -/
def project_command_legacy_path (wd name : String) : String :=
  wd ++ "/.opencode/command/" ++ name ++ ".md"

/-- `get_project_command_path` (lines 580-589). -/
def get_project_command_path (wd : String) (fs : String → Bool) (name : String) : String :=
  if fs (project_command_legacy_path wd name) && !fs (project_command_plural_path wd name) then
    project_command_legacy_path wd name
  else project_command_plural_path wd name

/-- `get_skill_dir`: user-level plural skills directory. -/
def get_skill_dir (home : String) : String := get_config_dir home ++ "/skills"

/-- `get_legacy_skill_dir`: user-level singular skill directory. -/
def get_legacy_skill_dir (home : String) : String := get_config_dir home ++ "/skill"

/-- The plural candidate for a user skill directory. -/
def user_skill_plural_dir (home name : String) : String :=
  get_skill_dir home ++ "/" ++ name

/-- The legacy candidate for a user skill directory. -/
def user_skill_legacy_dir (home name : String) : String :=
  get_legacy_skill_dir home ++ "/" ++ name

/-- `get_user_skill_dir` (lines 1753-1760). -/
def get_user_skill_dir (home : String) (fs : String → Bool) (name : String) : String :=
  if fs (user_skill_legacy_dir home name) && !fs (user_skill_plural_dir home name) then
    user_skill_legacy_dir home name
  else user_skill_plural_dir home name

/-- The plural candidate for a user skill `SKILL.md`. -/
def user_skill_plural_path (home name : String) : String :=
  get_skill_dir home ++ "/" ++ name ++ "/SKILL.md"

/-- The legacy candidate for a user skill `SKILL.md`. -/
def user_skill_legacy_path (home name : String) : String :=
  get_legacy_skill_dir home ++ "/" ++ name ++ "/SKILL.md"

/-- `get_user_skill_path` (lines 1763-1770). -/
def get_user_skill_path (home : String) (fs : String → Bool) (name : String) : String :=
  if fs (user_skill_legacy_path home name) && !fs (user_skill_plural_path home name) then
    user_skill_legacy_path home name
  else user_skill_plural_path home name

/-- The plural candidate for a project skill directory. -/
def project_skill_plural_dir (wd name : String) : String :=
  wd ++ "/.opencode/skills/" ++ name

/-- The legacy candidate for a project skill directory. -/
def project_skill_legacy_dir (wd name : String) : String :=
  wd ++ "/.opencode/skill/" ++ name

/-- `get_project_skill_dir` (lines 1773-1786). -/
def get_project_skill_dir (wd : String) (fs : String → Bool) (name : String) : String :=
  if fs (project_skill_legacy_dir wd name) && !fs (project_skill_plural_dir wd name) then
    project_skill_legacy_dir wd name
  else project_skill_plural_dir wd name

/-- The plural candidate for a project skill `SKILL.md`. -/
def project_skill_plural_path (wd name : String) : String :=
  wd ++ "/.opencode/skills/" ++ name ++ "/SKILL.md"

/-- The legacy candidate for a project skill `SKILL.md`. -/
def project_skill_legacy_path (wd name : String) : String :=
  wd ++ "/.opencode/skill/" ++ name ++ "/SKILL.md"

/-- `get_project_skill_path` (lines 1789-1804). -/
def get_project_skill_path (wd : String) (fs : String → Bool) (name : String) : String :=
  if fs (project_skill_legacy_path wd name) && !fs (project_skill_plural_path wd name) then
    project_skill_legacy_path wd name
  else project_skill_plural_path wd name

/-- `get_claude_skill_dir` (lines 1807-1812): no legacy alias. -/
def get_claude_skill_dir (wd name : String) : String :=
  wd ++ "/.claude/skills/" ++ name

/-- The capture group of the pattern `(?i)^\x7bfile:(.+)\x7d$` applied to an
(already trimmed) character list: on a match, the characters between the
case-insensitive `\x7bfile:` tag and the final brace (nonempty, free of
newlines, since `.` does not match a newline). -/
def refMid (cs : List Char) : Option (List Char) :=
  match cs with
  | '{' :: f :: i :: l :: e :: ':' :: rest =>
    if f.toLower = 'f' && i.toLower = 'i' && l.toLower = 'l' && e.toLower = 'e' then
      if rest.getLast? = some '}' && decide (2 ≤ rest.length)
          && rest.dropLast.all (fun c => c ≠ '\n') then
        some rest.dropLast
      else none
    else none
  | _ => none

/-- `is_prompt_file_reference` (lines 671-673). -/
def is_prompt_file_reference (value : String) : Bool :=
  (refMid (strTrim value).data).isSome

/-- `resolve_prompt_file_path` (lines 676-694): resolve a `\x7bfile:...\x7d`
reference; relative paths go under the config dir, absolute pass through. -/
def resolve_prompt_file_path (home reference : String) : Option String :=
  let trimmed := strTrim reference
  match refMid trimmed.data with
  | none => none
  | some mid =>
    let target := strTrim (String.mk mid)
    if target = "" then none
    else if strStartsWith target "./" then
      some (pathJoin (get_config_dir home) (strDrop target 2))
    else if strStartsWith target "/" then some target
    else some (pathJoin (get_config_dir home) target)

/-- Parsed Markdown file data (`MdData`): front-matter mapping plus body. -/
structure MdData where
  frontmatter : List (String × JValue)
  body : String

/-- Match `\r?\n` at the head of a character list (the `\r?` is greedy). -/
def dropNewline : List Char → Option (List Char)
  | '\r' :: '\n' :: rest => some rest
  | '\n' :: rest => some rest
  | _ => none

/-- Match the front-matter terminator `\r?\n---\r?\n` at the head of a
character list, returning the remainder. -/
def matchSep (cs : List Char) : Option (List Char) :=
  match dropNewline cs with
  | some cs1 =>
    match cs1 with
    | '-' :: '-' :: '-' :: cs2 => dropNewline cs2
    | _ => none
  | none => none

/-- The lazy group `(.*?)` followed by the terminator: the shortest prefix at
whose end the terminator matches, with the remainder after the terminator. -/
def findSplit : List Char → Option (List Char × List Char)
  | [] => none
  | c :: rest =>
    match matchSep (c :: rest) with
    | some remainder => some ([], remainder)
    | none =>
      match findSplit rest with
      | some (cap, remainder) => some (c :: cap, remainder)
      | none => none

/-- `parse_md_file` (lines 812-836) on file contents, with the YAML decoder
abstracted as `dec` (decode failure degrades to empty front-matter): match
`(?s)^---\r?\n(.*?)\r?\n---\r?\n(.*)$` and trim the body, else the whole
trimmed content is the body. -/
def parse_md_file (dec : String → Option (List (String × JValue)))
    (content : String) : MdData :=
  match content.data with
  | '-' :: '-' :: '-' :: rest =>
    match dropNewline rest with
    | some afterHeader =>
      match findSplit afterHeader with
      | some (yamlChars, bodyChars) =>
        { frontmatter := (dec (String.mk yamlChars)).getD [],
          body := strTrim (String.mk bodyChars) }
      | none => { frontmatter := [], body := strTrim content }
    | none => { frontmatter := [], body := strTrim content }
  | _ => { frontmatter := [], body := strTrim content }

/-- `write_md_file` (lines 839-857) as the content it writes, with the YAML
encoder abstracted as `enc`: explicit-null entries are filtered out, and the
file is `---\n<yaml>---\n\n<body>`. -/
def write_md_file (enc : List (String × JValue) → String)
    (frontmatter : List (String × JValue)) (body : String) : String :=
  "---\n" ++ enc (frontmatter.filter (fun p => !p.2.isNull)) ++ "---\n\n" ++ body

/-- The entry object an update starts from: the located section value as an
object, defaulting to empty (`update_agent` lines 1023-1028). -/
def existing_section_entry (layers : ConfigLayers) (sectionKey entryName : String) :
    List (String × JValue) :=
  (((get_json_entry_source layers sectionKey entryName).sectionVal).bind JValue.asObj).getD []

/-- The JSON document path an update writes to (`update_agent` lines
1031-1043): the located entry's own path, else the write target for the
preferred scope (project when a working directory was supplied). -/
def update_json_target_path (layers : ConfigLayers) (wdSupplied : Bool)
    (sectionKey entryName : String) : String :=
  let src := get_json_entry_source layers sectionKey entryName
  let preferredScope := if wdSupplied then some Scope.project else some Scope.user
  if src.present then src.path.getD (get_json_write_target layers preferredScope)
  else get_json_write_target layers preferredScope

/-- Lines 1168-1183: ensure the document and its section are objects, then
store the named entry. -/
def setSectionEntry (config : JValue) (sectionKey entryName : String)
    (entryVal : JValue) : JValue :=
  let configObj := match config with
    | JValue.obj m => m
    | _ => []
  let sectionObj := match (lookupA configObj sectionKey).getD (JValue.obj []) with
    | JValue.obj m => m
    | _ => []
  JValue.obj (insertA configObj sectionKey (JValue.obj (insertA sectionObj entryName entryVal)))

/-- Mutable state of the per-field update loop. -/
structure LoopState where
  mdData : Option MdData
  entry : List (String × JValue)
  mdModified : Bool
  jsonModified : Bool
  promptWrites : List (String × String)

/-- One iteration of the update loop (`update_agent` lines 1075-1152 /
`update_command` lines 1485-1564), returning the new state and an error when
a content-field file reference does not resolve. -/
def stepField (contentField home : String) (mdExists creatingNewMd : Bool)
    (st : LoopState) (field : String) (value : JValue) : LoopState × Option String :=
  if value.isNull then
    let st1 :=
      if mdExists then
        match st.mdData with
        | some data =>
          if containsA data.frontmatter field then
            { st with mdData := some { data with frontmatter := eraseA data.frontmatter field },
                      mdModified := true }
          else st
        | none => st
      else st
    let st2 :=
      if containsA st1.entry field then
        { st1 with entry := eraseA st1.entry field, jsonModified := true }
      else st1
    (st2, none)
  else if field = contentField then
    let normalized := value.asStr.getD ""
    if mdExists || creatingNewMd then
      match st.mdData with
      | some data =>
        ({ st with mdData := some { data with body := normalized }, mdModified := true }, none)
      | none => (st, none)
    else
      match (lookupA st.entry contentField).bind JValue.asStr with
      | some contentRef =>
        if is_prompt_file_reference contentRef then
          match resolve_prompt_file_path home contentRef with
          | some filePath =>
            ({ st with promptWrites := st.promptWrites ++ [(filePath, normalized)] }, none)
          | none => (st, some "invalid file reference")
        else
          ({ st with entry := insertA st.entry contentField (JValue.str normalized),
                     jsonModified := true }, none)
      | none =>
        ({ st with entry := insertA st.entry contentField (JValue.str normalized),
                   jsonModified := true }, none)
  else
    let inMd := match st.mdData with
      | some data => containsA data.frontmatter field
      | none => false
    let inJson := containsA st.entry field
    if inJson then
      ({ st with entry := insertA st.entry field value, jsonModified := true }, none)
    else if inMd || creatingNewMd then
      match st.mdData with
      | some data =>
        ({ st with mdData := some { data with frontmatter := insertA data.frontmatter field value },
                   mdModified := true }, none)
      | none => (st, none)
    else if (mdExists || creatingNewMd) && st.mdData.isSome then
      match st.mdData with
      | some data =>
        ({ st with mdData := some { data with frontmatter := insertA data.frontmatter field value },
                   mdModified := true }, none)
      | none => (st, none)
    else
      ({ st with entry := insertA st.entry field value, jsonModified := true }, none)

/-- Run the update loop over all fields, stopping at the first error (the `?`
operator aborts the surrounding function). -/
def runFields (contentField home : String) (mdExists creatingNewMd : Bool) :
    List (String × JValue) → LoopState → LoopState × Option String
  | [], st => (st, none)
  | (field, value) :: rest, st =>
    match stepField contentField home mdExists creatingNewMd st field value with
    | (st1, none) => runFields contentField home mdExists creatingNewMd rest st1
    | (st1, some e) => (st1, some e)

/-- The filesystem reads an agent/command update depends on. -/
structure UpdateInput where
  home : String
  wdSupplied : Bool
  mdExists : Bool
  mdPath : String
  userMdPath : String
  mdFile : MdData
  layers : ConfigLayers

/-- The writes an agent/command update performs. -/
structure UpdateResult where
  mdWrite : Option (String × MdData)
  jsonWrite : Option (String × JValue)
  promptWrites : List (String × String)
  err : Option String

/-- The shared body of `update_agent` (lines 1009-1194) and `update_command`
(lines 1423-1606), which differ only in section key and content-field name:
locate the JSON entry, process each update, then persist the Markdown data if
modified and the JSON document if modified — unless the artifact lived purely
in Markdown (an existing file and a previously empty JSON section). -/
def update_artifact (sectionKey contentField entryName : String) (inp : UpdateInput)
    (updates : List (String × JValue)) : UpdateResult :=
  let existingEntry := existing_section_entry inp.layers sectionKey entryName
  let hadJsonFields := !existingEntry.isEmpty
  let jsonTargetPath := update_json_target_path inp.layers inp.wdSupplied sectionKey entryName
  let config := get_config_for_path inp.layers jsonTargetPath
  let isBuiltinOverride := !inp.mdExists && !hadJsonFields
  let targetPath := if !inp.mdExists && isBuiltinOverride then inp.userMdPath else inp.mdPath
  let mdData0 : Option MdData :=
    if inp.mdExists then some inp.mdFile
    else if isBuiltinOverride then some { frontmatter := [], body := "" }
    else none
  let st0 : LoopState :=
    { mdData := mdData0, entry := existingEntry, mdModified := false,
      jsonModified := false, promptWrites := [] }
  match runFields contentField inp.home inp.mdExists isBuiltinOverride updates st0 with
  | (st, some e) =>
    { mdWrite := none, jsonWrite := none, promptWrites := st.promptWrites, err := some e }
  | (st, none) =>
    let mdWrite := if st.mdModified then st.mdData.map (fun d => (targetPath, d)) else none
    let jsonModifiedFinal := st.jsonModified && !(inp.mdExists && !hadJsonFields)
    let jsonWrite :=
      if jsonModifiedFinal then
        some (jsonTargetPath, setSectionEntry config sectionKey entryName (JValue.obj st.entry))
      else none
    { mdWrite := mdWrite, jsonWrite := jsonWrite, promptWrites := st.promptWrites, err := none }

/-- `update_agent` (lines 1009-1194). -/
def update_agent (agentName : String) (inp : UpdateInput)
    (updates : List (String × JValue)) : UpdateResult :=
  update_artifact "agent" "prompt" agentName inp updates

/-- `update_command` (lines 1423-1606). -/
def update_command (commandName : String) (inp : UpdateInput)
    (updates : List (String × JValue)) : UpdateResult :=
  update_artifact "command" "template" commandName inp updates

/-- The backup files produced by an update's JSON write: `write_config_at`
(lines 774-795) copies the target to `<name>.openchamber.backup` only when
the target exists, and `write_md_file` never produces a backup. -/
def config_backups (fsExists : String → Bool) (r : UpdateResult) : List String :=
  match r.jsonWrite with
  | some (p, _) => if fsExists p then [p ++ ".openchamber.backup"] else []
  | none => []

/-- The writes a `delete_agent`/`delete_command` call performs. -/
structure DeleteResult where
  removedMd : List String
  jsonWrite : Option (String × JValue)
  err : Option String

/-- Lines 1225-1234 / 1640-1649: remove the named entry from the document's
section, when the section is an object containing it. -/
def removeEntryFromSection (config : JValue) (sectionKey entryName : String) :
    Option JValue :=
  match config with
  | JValue.obj m =>
    match lookupA m sectionKey with
    | some (JValue.obj sec) =>
      if containsA sec entryName then
        some (JValue.obj (insertA m sectionKey (JValue.obj (eraseA sec entryName))))
      else none
    | _ => none
  | _ => none

/-- `delete_agent` (lines 1197-1268): delete the project and user Markdown
files when present, remove the highest-precedence JSON entry, and when none of
those applied, disable the built-in by writing `\x7b"disable": true\x7d` at
the JSON write target. -/
def delete_agent (home : String) (wd : Option String) (fs : String → Bool)
    (layers : ConfigLayers) (agentName : String) : DeleteResult :=
  let removed1 := match wd with
    | some w =>
      let projectPath := get_project_agent_path w fs agentName
      if fs projectPath then [projectPath] else []
    | none => []
  let userPath := get_user_agent_path home fs agentName
  let removed2 := if fs userPath then [userPath] else []
  let src := get_json_entry_source layers "agent" agentName
  let jsonRemoval : Option (String × JValue) :=
    if src.present then
      match src.path with
      | some jsonPath =>
        match removeEntryFromSection (get_config_for_path layers jsonPath) "agent" agentName with
        | some newConfig => some (jsonPath, newConfig)
        | none => none
      | none => none
    else none
  let deleted := !removed1.isEmpty || !removed2.isEmpty || jsonRemoval.isSome
  if deleted then
    { removedMd := removed1 ++ removed2, jsonWrite := jsonRemoval, err := none }
  else
    let preferredScope := if wd.isSome then some Scope.project else some Scope.user
    let jsonPath := get_json_write_target layers preferredScope
    let config := get_config_for_path layers jsonPath
    let newConfig :=
      setSectionEntry config "agent" agentName (JValue.obj [("disable", JValue.bool true)])
    { removedMd := [], jsonWrite := some (jsonPath, newConfig), err := none }

/-- `delete_command` (lines 1609-1658): same removals as `delete_agent`, but a
NotFound error when nothing was deleted. -/
def delete_command (home : String) (wd : Option String) (fs : String → Bool)
    (layers : ConfigLayers) (commandName : String) : DeleteResult :=
  let removed1 := match wd with
    | some w =>
      let projectPath := get_project_command_path w fs commandName
      if fs projectPath then [projectPath] else []
    | none => []
  let userPath := get_user_command_path home fs commandName
  let removed2 := if fs userPath then [userPath] else []
  let src := get_json_entry_source layers "command" commandName
  let jsonRemoval : Option (String × JValue) :=
    if src.present then
      match src.path with
      | some jsonPath =>
        match removeEntryFromSection (get_config_for_path layers jsonPath) "command" commandName with
        | some newConfig => some (jsonPath, newConfig)
        | none => none
      | none => none
    else none
  let deleted := !removed1.isEmpty || !removed2.isEmpty || jsonRemoval.isSome
  if deleted then
    { removedMd := removed1 ++ removed2, jsonWrite := jsonRemoval, err := none }
  else
    { removedMd := [], jsonWrite := none,
      err := some ("Command " ++ commandName ++ " not found") }

/-- Remove a path from an existence predicate (`remove_dir_all`). -/
def fsRemove (fs : String → Bool) (p : String) : String → Bool :=
  fun q => if q = p then false else fs q

/-- The effect of a `delete_skill` call. -/
structure SkillDeleteResult where
  removedDirs : List String
  err : Option String

/-- `delete_skill` (lines 2332-2383): remove, in order, the resolved
project-native directory, the Claude-compat directory, the resolved user
directory, and the legacy user directory, re-checking existence as the
filesystem evolves; NotFound when no removal applied. -/
def delete_skill (home : String) (wd : Option String) (fs : String → Bool)
    (skillName : String) : SkillDeleteResult :=
  let s1 : (String → Bool) × List String := match wd with
    | some w =>
      let projectDir := get_project_skill_dir w fs skillName
      if fs projectDir then (fsRemove fs projectDir, [projectDir]) else (fs, [])
    | none => (fs, [])
  let s2 : (String → Bool) × List String := match wd with
    | some w =>
      let claudeDir := get_claude_skill_dir w skillName
      if s1.1 claudeDir then (fsRemove s1.1 claudeDir, s1.2 ++ [claudeDir]) else s1
    | none => s1
  let userDir := get_user_skill_dir home s2.1 skillName
  let s3 : (String → Bool) × List String :=
    if s2.1 userDir then (fsRemove s2.1 userDir, s2.2 ++ [userDir]) else s2
  let legacyUserDir := user_skill_legacy_dir home skillName
  let s4 : (String → Bool) × List String :=
    if s3.1 legacyUserDir then (fsRemove s3.1 legacyUserDir, s3.2 ++ [legacyUserDir]) else s3
  if s4.2.isEmpty then { removedDirs := [], err := some "Skill not found" }
  else { removedDirs := s4.2, err := none }

/-- Provider scope (`ProviderScope`). -/
inductive ProviderScope where
  | user
  | project
  | custom
deriving DecidableEq

/-- The config path `remove_provider_config` targets for a scope (lines
433-445); `none` models the "path is not available" error. -/
def provider_scope_path (layers : ConfigLayers) : ProviderScope → Option String
  | ProviderScope.project => layers.paths.project
  | ProviderScope.custom => layers.paths.custom
  | ProviderScope.user => some layers.paths.user

/-- One provider-section removal (lines 452-468): when the section is an
object containing the id, remove it and report whether the section became
empty. -/
def provider_section_remove (config : JValue) (key id : String) :
    JValue × Bool × Bool :=
  match config with
  | JValue.obj m =>
    match lookupA m key with
    | some (JValue.obj sec) =>
      if containsA sec id then
        let newSec := eraseA sec id
        (JValue.obj (insertA m key (JValue.obj newSec)), true, newSec.isEmpty)
      else (config, false, false)
    | _ => (config, false, false)
  | _ => (config, false, false)

/-- Drop a now-empty top-level section key (lines 474-479). -/
def removeTopKey (config : JValue) (key : String) : JValue :=
  match config with
  | JValue.obj m => JValue.obj (eraseA m key)
  | _ => config

/-- `remove_provider_config` (lines 423-483): pure model returning whether a
provider was removed and, when it was, the written document. -/
def remove_provider_config (layers : ConfigLayers) (providerId : String)
    (scope : ProviderScope) : Except String (Bool × Option (String × JValue)) :=
  if strTrim providerId = "" then Except.error "Provider ID is required"
  else
    match provider_scope_path layers scope with
    | none => Except.error "config path is not available"
    | some targetPath =>
      let config := get_config_for_path layers targetPath
      let r1 := provider_section_remove config "provider" providerId
      let r2 := provider_section_remove r1.1 "providers" providerId
      if !(r1.2.1 || r2.2.1) then Except.ok (false, none)
      else
        let config3 := if r1.2.2 then removeTopKey r2.1 "provider" else r2.1
        let config4 := if r2.2.2 then removeTopKey config3 "providers" else config3
        Except.ok (true, some (targetPath, config4))

/-- An empty filesystem: no path exists. -/
def fsFalse : String → Bool := fun _ => false

/-- Layers with the agent `x` defined in all three JSON layers. -/
def layersW2 : ConfigLayers :=
  { user := JValue.obj [("agent", JValue.obj [("x", JValue.str "u")])],
    project := JValue.obj [("agent", JValue.obj [("x", JValue.str "p")])],
    custom := JValue.obj [("agent", JValue.obj [("x", JValue.str "c")])],
    merged := JValue.obj [],
    paths := { user := "/u.json", project := some "/p.json", custom := some "/c.json" } }

/-- Layers with the agent `x` defined in the project and user layers only. -/
def layersW2b : ConfigLayers :=
  { user := JValue.obj [("agent", JValue.obj [("x", JValue.str "u")])],
    project := JValue.obj [("agent", JValue.obj [("x", JValue.str "p")])],
    custom := JValue.obj [],
    merged := JValue.obj [],
    paths := { user := "/u.json", project := some "/p.json", custom := none } }

/-- Layers defining nothing, with only the user path configured. -/
def layersEmptyUser : ConfigLayers :=
  { user := JValue.obj [], project := JValue.obj [], custom := JValue.obj [],
    merged := JValue.obj [],
    paths := { user := "/u.json", project := none, custom := none } }

/-- Layers with a user-level provider section that holds only provider `z`. -/
def layersW10 : ConfigLayers :=
  { user := JValue.obj [("provider", JValue.obj [("z", JValue.obj [])])],
    project := JValue.obj [], custom := JValue.obj [], merged := JValue.obj [],
    paths := { user := "/u.json", project := none, custom := none } }

/-- A filesystem containing exactly the legacy user agent file for `a`. -/
def fsW7 : String → Bool := fun p => p == user_agent_legacy_path "/h" "a"

/-- Layers where agent `a` has a JSON section containing only `prompt`. -/
def layersCex1 : ConfigLayers :=
  { user := JValue.obj [("agent", JValue.obj [("a",
      JValue.obj [("prompt", JValue.str "old")])])],
    project := JValue.obj [], custom := JValue.obj [], merged := JValue.obj [],
    paths := { user := "/u.json", project := none, custom := none } }

/-- Update input for agent `a`: a Markdown file exists alongside the JSON
section of `layersCex1`. -/
def inpCex1 : UpdateInput :=
  { home := "/h", wdSupplied := false, mdExists := true,
    mdPath := "/h/.config/opencode/agents/a.md",
    userMdPath := "/h/.config/opencode/agents/a.md",
    mdFile := { frontmatter := [], body := "body" }, layers := layersCex1 }

/-- Layers where agent `a` is JSON-only with a `model` field. -/
def layersW1 : ConfigLayers :=
  { user := JValue.obj [("agent", JValue.obj [("a",
      JValue.obj [("model", JValue.str "x")])])],
    project := JValue.obj [], custom := JValue.obj [], merged := JValue.obj [],
    paths := { user := "/u.json", project := none, custom := none } }

/-- Update input for the JSON-only agent `a` of `layersW1` (no Markdown). -/
def inpW1 : UpdateInput :=
  { home := "/h", wdSupplied := false, mdExists := false,
    mdPath := "/h/.config/opencode/agents/a.md",
    userMdPath := "/h/.config/opencode/agents/a.md",
    mdFile := { frontmatter := [], body := "" }, layers := layersW1 }

/-- Layers where agent `a` is JSON-only and its `prompt` is a file
indirection reference. -/
def layersW6 : ConfigLayers :=
  { user := JValue.obj [("agent", JValue.obj [("a",
      JValue.obj [("prompt", JValue.str "\x7bfile:p.txt\x7d")])])],
    project := JValue.obj [], custom := JValue.obj [], merged := JValue.obj [],
    paths := { user := "/u.json", project := none, custom := none } }

/-- Update input for the JSON-only agent `a` of `layersW6` (no Markdown). -/
def inpW6 : UpdateInput :=
  { home := "/h", wdSupplied := false, mdExists := false,
    mdPath := "/h/.config/opencode/agents/a.md",
    userMdPath := "/h/.config/opencode/agents/a.md",
    mdFile := { frontmatter := [], body := "" }, layers := layersW6 }

/-- Sample front-matter used to evaluate the round-trip theorem. -/
def sampleFm : List (String × JValue) := [("description", JValue.str "x")]

/-- A concrete YAML encoder for `sampleFm`. -/
def sampleYamlEnc : List (String × JValue) → String := fun _ => "description: x\n"

/-- A concrete YAML decoder inverting `sampleYamlEnc` on `sampleFm`. -/
def sampleYamlDec : String → Option (List (String × JValue)) :=
  fun s => if s = "description: x" then some sampleFm else none

/-- A filesystem holding both the plural and the legacy project-native
directories of skill `s`. -/
def fsCex8 : String → Bool := fun p =>
  p == "/w/.opencode/skills/s" || p == "/w/.opencode/skill/s"

theorem lookupA_insertA (m : List (String × JValue)) (k : String) (v : JValue)
    (q : String) : lookupA (insertA m k v) q = if q = k then some v else lookupA m q := by
  induction m with
  | nil =>
    by_cases h : q = k
    · subst h; simp [insertA, lookupA]
    · simp [insertA, lookupA, h, Ne.symm h]
  | cons p rest ih =>
    obtain ⟨a, w⟩ := p
    by_cases hak : a = k
    · subst hak
      by_cases hq : q = a
      · subst hq; simp [insertA, lookupA]
      · simp [insertA, lookupA, hq, Ne.symm hq]
    · by_cases hq : q = a
      · subst hq
        simp [insertA, lookupA, hak, fun hh : q = k => hak (hh ▸ rfl)]
      · simp [insertA, lookupA, hak, Ne.symm hq, ih]

theorem lookupA_eq_none_of_not_mem (m : List (String × JValue)) (k : String)
    (h : k ∉ m.map Prod.fst) : lookupA m k = none := by
  induction m with
  | nil => rfl
  | cons p rest ih =>
    obtain ⟨a, w⟩ := p
    simp only [List.map_cons, List.mem_cons, not_or] at h
    have hak : ¬(a = k) := fun hh => h.1 hh.symm
    simp [lookupA, hak, ih h.2]

theorem mergeLoop_lookup (os : List (String × JValue)) (bs : List (String × JValue))
    (k : String) (h : (os.map Prod.fst).Nodup) :
    lookupA (mergeLoop bs os) k =
      match lookupA os k with
      | some ov => some (merge_values ((lookupA bs k).getD JValue.null) ov)
      | none => lookupA bs k := by
  induction os generalizing bs with
  | nil => simp [mergeLoop, lookupA]
  | cons p rest ih =>
    obtain ⟨k0, v0⟩ := p
    simp only [List.map_cons, List.nodup_cons] at h
    have hstep : mergeLoop bs ((k0, v0) :: rest) =
        mergeLoop (insertA bs k0 (merge_values ((lookupA bs k0).getD JValue.null) v0)) rest := by
      simp [mergeLoop]
    rw [hstep, ih (insertA bs k0 (merge_values ((lookupA bs k0).getD JValue.null) v0)) h.2]
    by_cases hk : k0 = k
    · subst hk
      have hrest : lookupA rest k0 = none := lookupA_eq_none_of_not_mem rest k0 h.1
      simp [lookupA, hrest, lookupA_insertA]
    · have hq : ¬(k = k0) := fun hh => hk hh.symm
      simp only [lookupA, if_neg hk, lookupA_insertA, if_neg hq]

/-- C3: the merged view loaded by `read_config_layers` is
`merge_values (merge_values user project) custom`; `merge_values` replaces the
base wholesale whenever base and overlay are not both objects (in particular
arrays are never concatenated or merged element-wise), and on two objects it
proceeds key by key: for every key, the result holds the recursive merge of
the base value (defaulting to null) with the overlay value when the overlay
has the key, and the base value otherwise — so a value present in custom
dominates project, which dominates user, at every nesting depth. -/
theorem c3_deep_merge :
    (∀ user project custom : JValue,
      layersMergedView user project custom = merge_values (merge_values user project) custom) ∧
    (∀ b o : JValue, (b.isObj = false ∨ o.isObj = false) → merge_values b o = o) ∧
    (∀ (b : JValue) (xs : List JValue), merge_values b (JValue.arr xs) = JValue.arr xs) ∧
    (∀ (bs os : List (String × JValue)) (k : String), (os.map Prod.fst).Nodup →
      lookupA (mergeLoop bs os) k =
        match lookupA os k with
        | some ov => some (merge_values ((lookupA bs k).getD JValue.null) ov)
        | none => lookupA bs k) := by
  refine ⟨fun _ _ _ => rfl, ?_, ?_, fun bs os k h => mergeLoop_lookup os bs k h⟩
  · intro b o hbo
    cases b <;> cases o <;> simp_all [merge_values, JValue.isObj]
  · intro b xs
    cases b <;> simp [merge_values]

theorem c3_deep_merge_witness :
    (([("s", JValue.num 1)] : List (String × JValue)).map Prod.fst).Nodup ∧
    lookupA (mergeLoop [("s", JValue.num 0), ("t", JValue.num 7)] [("s", JValue.num 1)]) "s" =
      some (JValue.num 1) ∧
    lookupA (mergeLoop [("s", JValue.num 0), ("t", JValue.num 7)] [("s", JValue.num 1)]) "t" =
      some (JValue.num 7) := by
  refine ⟨by decide, ?_, ?_⟩
  · exact (c3_deep_merge.2.2.2 [("s", JValue.num 0), ("t", JValue.num 7)]
      [("s", JValue.num 1)] "s" (by decide)).trans (by simp [lookupA, merge_values])
  · exact (c3_deep_merge.2.2.2 [("s", JValue.num 0), ("t", JValue.num 7)]
      [("s", JValue.num 1)] "t" (by decide)).trans (by simp [lookupA])

/-- C9: an update with an empty updates map performs no writes at all: no
Markdown file, no JSON document, no prompt file, and consequently no backup
(`write_config_at` only backs up when it writes, and `write_md_file` never
creates backups). -/
theorem c9_empty_update_no_writes :
    ∀ (name : String) (inp : UpdateInput) (fs : String → Bool),
      update_agent name inp [] =
        { mdWrite := none, jsonWrite := none, promptWrites := [], err := none } ∧
      update_command name inp [] =
        { mdWrite := none, jsonWrite := none, promptWrites := [], err := none } ∧
      config_backups fs (update_agent name inp []) = [] ∧
      config_backups fs (update_command name inp []) = [] := by
  intro name inp fs
  exact ⟨rfl, rfl, rfl, rfl⟩

/-- C2: `get_json_entry_source` resolves an artifact's entry from the custom
layer when its section contains the name, else from the project layer, else
from the user layer, else reports an absent result — in particular a name in
both project and user resolves to the project entry, and one additionally in
custom resolves to the custom entry. -/
theorem c2_entry_precedence (layers : ConfigLayers) (sectionKey entryName : String)
    (hwf : layers.wf) :
    get_json_entry_source layers sectionKey entryName =
      match sectionLookup layers.custom sectionKey entryName with
      | some value =>
        { present := true, path := layers.paths.custom, sectionVal := some value }
      | none =>
        match sectionLookup layers.project sectionKey entryName with
        | some value =>
          { present := true, path := layers.paths.project, sectionVal := some value }
        | none =>
          match sectionLookup layers.user sectionKey entryName with
          | some value =>
            { present := true, path := some layers.paths.user, sectionVal := some value }
          | none => { present := false, path := none, sectionVal := none } := by
  obtain ⟨hwfp, hwfc⟩ := hwf
  rcases hcl : sectionLookup layers.custom sectionKey entryName with _ | cv
  · rcases hpl : sectionLookup layers.project sectionKey entryName with _ | pv
    · rcases hul : sectionLookup layers.user sectionKey entryName with _ | uv <;>
        rcases hc : layers.paths.custom with _ | cp <;>
          rcases hp : layers.paths.project with _ | pp <;>
            simp [get_json_entry_source, hc, hcl, hpl, hul]
    · rcases hp : layers.paths.project with _ | pp
      · rw [hwfp hp] at hpl
        exact absurd hpl (by simp [sectionLookup, JValue.getKey, lookupA])
      · rcases hc : layers.paths.custom with _ | cp <;>
          simp [get_json_entry_source, hc, hcl, hpl, hp]
  · rcases hc : layers.paths.custom with _ | cp
    · rw [hwfc hc] at hcl
      exact absurd hcl (by simp [sectionLookup, JValue.getKey, lookupA])
    · simp [get_json_entry_source, hc, hcl]

theorem c2_entry_precedence_witness :
    get_json_entry_source layersW2 "agent" "x" =
      { present := true, path := some "/c.json", sectionVal := some (JValue.str "c") } ∧
    get_json_entry_source layersW2b "agent" "x" =
      { present := true, path := some "/p.json", sectionVal := some (JValue.str "p") } := by
  constructor
  · exact (c2_entry_precedence layersW2 "agent" "x"
      (by unfold ConfigLayers.wf; exact ⟨fun h => (nomatch h), fun h => (nomatch h)⟩)).trans rfl
  · exact (c2_entry_precedence layersW2b "agent" "x"
      (by unfold ConfigLayers.wf; exact ⟨fun h => (nomatch h), fun _ => rfl⟩)).trans rfl

theorem provider_section_remove_of_none (config : JValue) (key id : String)
    (h : sectionLookup config key id = none) :
    provider_section_remove config key id = (config, false, false) := by
  cases config with
  | null => rfl
  | bool b => rfl
  | num n => rfl
  | str s => rfl
  | arr xs => rfl
  | obj m =>
    rcases hl : lookupA m key with _ | v
    · simp [provider_section_remove, hl]
    · have h2 : ((JValue.asObj v).bind fun sec => lookupA sec id) = none := by
        simpa [sectionLookup, JValue.getKey, hl] using h
      cases v with
      | obj sec =>
        have h3 : lookupA sec id = none := by simpa [JValue.asObj] using h2
        simp [provider_section_remove, hl, containsA, h3]
      | null => simp [provider_section_remove, hl]
      | bool b => simp [provider_section_remove, hl]
      | num n => simp [provider_section_remove, hl]
      | str s => simp [provider_section_remove, hl]
      | arr xs => simp [provider_section_remove, hl]

/-- C10: for a non-blank provider id and a scope whose layer path is
configured, when the id is in neither the `provider` nor the `providers`
section of the document that path selects, `remove_provider_config` returns
false and writes nothing. -/
theorem c10_remove_provider_missing (layers : ConfigLayers) (providerId : String)
    (scope : ProviderScope) (targetPath : String)
    (hid : ¬(strTrim providerId = ""))
    (hpath : provider_scope_path layers scope = some targetPath)
    (h1 : sectionLookup (get_config_for_path layers targetPath) "provider" providerId = none)
    (h2 : sectionLookup (get_config_for_path layers targetPath) "providers" providerId = none) :
    remove_provider_config layers providerId scope = Except.ok (false, none) := by
  simp only [remove_provider_config, if_neg hid, hpath,
    provider_section_remove_of_none _ _ _ h1, provider_section_remove_of_none _ _ _ h2]
  rfl

theorem c10_remove_provider_missing_witness :
    ¬(strTrim "q" = "") ∧
    remove_provider_config layersW10 "q" ProviderScope.user = Except.ok (false, none) :=
  ⟨by decide,
    c10_remove_provider_missing layersW10 "q" ProviderScope.user "/u.json"
      (by decide) rfl rfl rfl⟩

theorem entry_absent_of_lookups_none (layers : ConfigLayers) (sk n : String)
    (hu : sectionLookup layers.user sk n = none)
    (hp : sectionLookup layers.project sk n = none)
    (hc : sectionLookup layers.custom sk n = none) :
    get_json_entry_source layers sk n =
      { present := false, path := none, sectionVal := none } := by
  rcases hcp : layers.paths.custom with _ | cp <;>
    rcases hpp : layers.paths.project with _ | pp <;>
      simp [get_json_entry_source, hcp, hpp, hu, hp, hc]

/-- C4: for a name that exists as no project Markdown file, no user Markdown
file, and in no JSON layer's section, `delete_command` returns a NotFound
error while `delete_agent` succeeds and writes `\x7b"disable": true\x7d` as the
agent's entry under the `agent` key of the JSON write-target layer — custom if
configured, else project if a working directory was supplied, else user. -/
theorem c4_delete_missing (home : String) (wd : Option String) (fs : String → Bool)
    (layers : ConfigLayers) (name : String)
    (hpa : ∀ w, wd = some w → fs (get_project_agent_path w fs name) = false)
    (hpc : ∀ w, wd = some w → fs (get_project_command_path w fs name) = false)
    (hua : fs (get_user_agent_path home fs name) = false)
    (huc : fs (get_user_command_path home fs name) = false)
    (hju : sectionLookup layers.user "agent" name = none ∧
      sectionLookup layers.user "command" name = none)
    (hjp : sectionLookup layers.project "agent" name = none ∧
      sectionLookup layers.project "command" name = none)
    (hjc : sectionLookup layers.custom "agent" name = none ∧
      sectionLookup layers.custom "command" name = none)
    (hwd : layers.paths.project.isSome = wd.isSome) :
    delete_command home wd fs layers name =
      { removedMd := [], jsonWrite := none,
        err := some ("Command " ++ name ++ " not found") } ∧
    delete_agent home wd fs layers name =
      { removedMd := [],
        jsonWrite := some (
          (match layers.paths.custom with
           | some c => c
           | none => match wd with
             | some _ => layers.paths.project.getD layers.paths.user
             | none => layers.paths.user),
          setSectionEntry
            (get_config_for_path layers
              (match layers.paths.custom with
               | some c => c
               | none => match wd with
                 | some _ => layers.paths.project.getD layers.paths.user
                 | none => layers.paths.user))
            "agent" name (JValue.obj [("disable", JValue.bool true)])),
        err := none } := by
  have hsa := entry_absent_of_lookups_none layers "agent" name hju.1 hjp.1 hjc.1
  have hsc := entry_absent_of_lookups_none layers "command" name hju.2 hjp.2 hjc.2
  constructor
  · rcases wd with _ | w
    · simp [delete_command, hsc, huc]
    · simp [delete_command, hsc, huc, hpc w rfl]
  · rcases wd with _ | w
    · have hpn : layers.paths.project = none := by
        rcases hh : layers.paths.project with _ | p
        · rfl
        · rw [hh] at hwd; exact absurd hwd (by simp)
      rcases hcp : layers.paths.custom with _ | cp <;>
        simp [delete_agent, hsa, hua, get_json_write_target, hpn, hcp]
    · obtain ⟨p, hp⟩ : ∃ p, layers.paths.project = some p := by
        rcases hh : layers.paths.project with _ | p
        · rw [hh] at hwd; exact absurd hwd (by simp)
        · exact ⟨p, rfl⟩
      rcases hcp : layers.paths.custom with _ | cp <;>
        simp [delete_agent, hsa, hua, hpa w rfl, get_json_write_target, hp, hcp]

theorem c4_delete_missing_witness :
    delete_command "/h" none fsFalse layersEmptyUser "bar" =
      { removedMd := [], jsonWrite := none,
        err := some ("Command " ++ "bar" ++ " not found") } ∧
    delete_agent "/h" none fsFalse layersEmptyUser "bar" =
      { removedMd := [],
        jsonWrite := some ("/u.json",
          JValue.obj [("agent", JValue.obj [("bar",
            JValue.obj [("disable", JValue.bool true)])])]),
        err := none } := by
  have h := c4_delete_missing "/h" none fsFalse layersEmptyUser "bar"
    (fun w hw => (nomatch hw)) (fun w hw => (nomatch hw)) rfl rfl
    ⟨rfl, rfl⟩ ⟨rfl, rfl⟩ ⟨rfl, rfl⟩ rfl
  exact ⟨h.1, h.2.trans rfl⟩

theorem ne_of_length_ne {a b : String} (h : a.length ≠ b.length) : a ≠ b :=
  fun e => h (congrArg String.length e)

theorem user_agent_legacy_ne_plural (home name : String) :
    user_agent_legacy_path home name ≠ user_agent_plural_path home name := by
  apply ne_of_length_ne
  simp only [user_agent_legacy_path, user_agent_plural_path, get_legacy_agent_dir,
    get_agent_dir, get_config_dir, String.length_append]
  have h1 : ("/agent" : String).length = 6 := rfl
  have h2 : ("/agents" : String).length = 7 := rfl
  omega

theorem project_agent_legacy_ne_plural (wd name : String) :
    project_agent_legacy_path wd name ≠ project_agent_plural_path wd name := by
  apply ne_of_length_ne
  simp only [project_agent_legacy_path, project_agent_plural_path, String.length_append]
  have h1 : ("/.opencode/agent/" : String).length = 17 := rfl
  have h2 : ("/.opencode/agents/" : String).length = 18 := rfl
  omega

theorem user_command_legacy_ne_plural (home name : String) :
    user_command_legacy_path home name ≠ user_command_plural_path home name := by
  apply ne_of_length_ne
  simp only [user_command_legacy_path, user_command_plural_path, get_legacy_command_dir,
    get_command_dir, get_config_dir, String.length_append]
  have h1 : ("/command" : String).length = 8 := rfl
  have h2 : ("/commands" : String).length = 9 := rfl
  omega

theorem project_command_legacy_ne_plural (wd name : String) :
    project_command_legacy_path wd name ≠ project_command_plural_path wd name := by
  apply ne_of_length_ne
  simp only [project_command_legacy_path, project_command_plural_path, String.length_append]
  have h1 : ("/.opencode/command/" : String).length = 19 := rfl
  have h2 : ("/.opencode/commands/" : String).length = 20 := rfl
  omega

theorem user_skill_legacy_ne_plural_path (home name : String) :
    user_skill_legacy_path home name ≠ user_skill_plural_path home name := by
  apply ne_of_length_ne
  simp only [user_skill_legacy_path, user_skill_plural_path, get_legacy_skill_dir,
    get_skill_dir, get_config_dir, String.length_append]
  have h1 : ("/skill" : String).length = 6 := rfl
  have h2 : ("/skills" : String).length = 7 := rfl
  omega

theorem project_skill_legacy_ne_plural_path (wd name : String) :
    project_skill_legacy_path wd name ≠ project_skill_plural_path wd name := by
  apply ne_of_length_ne
  simp only [project_skill_legacy_path, project_skill_plural_path, String.length_append]
  have h1 : ("/.opencode/skill/" : String).length = 17 := rfl
  have h2 : ("/.opencode/skills/" : String).length = 18 := rfl
  omega

theorem user_skill_legacy_ne_plural_dir (home name : String) :
    user_skill_legacy_dir home name ≠ user_skill_plural_dir home name := by
  apply ne_of_length_ne
  simp only [user_skill_legacy_dir, user_skill_plural_dir, get_legacy_skill_dir,
    get_skill_dir, get_config_dir, String.length_append]
  have h1 : ("/skill" : String).length = 6 := rfl
  have h2 : ("/skills" : String).length = 7 := rfl
  omega

theorem project_skill_legacy_ne_plural_dir (wd name : String) :
    project_skill_legacy_dir wd name ≠ project_skill_plural_dir wd name := by
  apply ne_of_length_ne
  simp only [project_skill_legacy_dir, project_skill_plural_dir, String.length_append]
  have h1 : ("/.opencode/skill/" : String).length = 17 := rfl
  have h2 : ("/.opencode/skills/" : String).length = 18 := rfl
  omega

theorem claude_skill_ne_project_plural (wd name : String) :
    get_claude_skill_dir wd name ≠ project_skill_plural_dir wd name := by
  apply ne_of_length_ne
  simp only [get_claude_skill_dir, project_skill_plural_dir, String.length_append]
  have h1 : ("/.claude/skills/" : String).length = 16 := rfl
  have h2 : ("/.opencode/skills/" : String).length = 18 := rfl
  omega

theorem claude_skill_ne_project_legacy (wd name : String) :
    get_claude_skill_dir wd name ≠ project_skill_legacy_dir wd name := by
  apply ne_of_length_ne
  simp only [get_claude_skill_dir, project_skill_legacy_dir, String.length_append]
  have h1 : ("/.claude/skills/" : String).length = 16 := rfl
  have h2 : ("/.opencode/skill/" : String).length = 17 := rfl
  omega

theorem dual_resolve_spec (fs : String → Bool) (L P : String) (hne : L ≠ P) :
    ((if fs L && !fs P then L else P) = L ↔ fs L = true ∧ fs P = false) ∧
    (¬(fs L = true ∧ fs P = false) → (if fs L && !fs P then L else P) = P) := by
  cases hL : fs L <;> cases hP : fs P <;> simp [hL, hP, hne, Ne.symm hne]

/-- C7: for every artifact kind and scope, path resolution returns the legacy
singular-directory path iff the legacy file exists and the plural file does
not; in every other case (plural only, both, or neither) it returns the
plural path — so creating a plural file switches resolution to the plural path
even while the legacy file remains. -/
theorem c7_plural_legacy_resolution :
    ∀ (home wd : String) (fs : String → Bool) (name : String),
      ((get_user_agent_path home fs name = user_agent_legacy_path home name ↔
          fs (user_agent_legacy_path home name) = true ∧
            fs (user_agent_plural_path home name) = false) ∧
        (¬(fs (user_agent_legacy_path home name) = true ∧
            fs (user_agent_plural_path home name) = false) →
          get_user_agent_path home fs name = user_agent_plural_path home name)) ∧
      ((get_project_agent_path wd fs name = project_agent_legacy_path wd name ↔
          fs (project_agent_legacy_path wd name) = true ∧
            fs (project_agent_plural_path wd name) = false) ∧
        (¬(fs (project_agent_legacy_path wd name) = true ∧
            fs (project_agent_plural_path wd name) = false) →
          get_project_agent_path wd fs name = project_agent_plural_path wd name)) ∧
      ((get_user_command_path home fs name = user_command_legacy_path home name ↔
          fs (user_command_legacy_path home name) = true ∧
            fs (user_command_plural_path home name) = false) ∧
        (¬(fs (user_command_legacy_path home name) = true ∧
            fs (user_command_plural_path home name) = false) →
          get_user_command_path home fs name = user_command_plural_path home name)) ∧
      ((get_project_command_path wd fs name = project_command_legacy_path wd name ↔
          fs (project_command_legacy_path wd name) = true ∧
            fs (project_command_plural_path wd name) = false) ∧
        (¬(fs (project_command_legacy_path wd name) = true ∧
            fs (project_command_plural_path wd name) = false) →
          get_project_command_path wd fs name = project_command_plural_path wd name)) ∧
      ((get_user_skill_path home fs name = user_skill_legacy_path home name ↔
          fs (user_skill_legacy_path home name) = true ∧
            fs (user_skill_plural_path home name) = false) ∧
        (¬(fs (user_skill_legacy_path home name) = true ∧
            fs (user_skill_plural_path home name) = false) →
          get_user_skill_path home fs name = user_skill_plural_path home name)) ∧
      ((get_project_skill_path wd fs name = project_skill_legacy_path wd name ↔
          fs (project_skill_legacy_path wd name) = true ∧
            fs (project_skill_plural_path wd name) = false) ∧
        (¬(fs (project_skill_legacy_path wd name) = true ∧
            fs (project_skill_plural_path wd name) = false) →
          get_project_skill_path wd fs name = project_skill_plural_path wd name)) := by
  intro home wd fs name
  exact ⟨dual_resolve_spec fs _ _ (user_agent_legacy_ne_plural home name),
    dual_resolve_spec fs _ _ (project_agent_legacy_ne_plural wd name),
    dual_resolve_spec fs _ _ (user_command_legacy_ne_plural home name),
    dual_resolve_spec fs _ _ (project_command_legacy_ne_plural wd name),
    dual_resolve_spec fs _ _ (user_skill_legacy_ne_plural_path home name),
    dual_resolve_spec fs _ _ (project_skill_legacy_ne_plural_path wd name)⟩

theorem c7_plural_legacy_resolution_witness :
    (fsW7 (user_agent_legacy_path "/h" "a") = true ∧
      fsW7 (user_agent_plural_path "/h" "a") = false) ∧
    get_user_agent_path "/h" fsW7 "a" = user_agent_legacy_path "/h" "a" :=
  ⟨⟨by decide, by decide⟩,
    ((c7_plural_legacy_resolution "/h" "/w" fsW7 "a").1.1).mpr ⟨by decide, by decide⟩⟩

theorem isEmpty_false_of_containsA {m : List (String × JValue)} {f : String}
    (h : containsA m f = true) : m.isEmpty = false := by
  rcases m with _ | ⟨p, rest⟩
  · simp [containsA, lookupA] at h
  · rfl

theorem update_single_json_field (sectionKey contentField entryName : String)
    (inp : UpdateInput) (field : String) (v : JValue)
    (hf : field ≠ contentField) (hv : v.isNull = false)
    (hin : containsA (existing_section_entry inp.layers sectionKey entryName) field = true) :
    update_artifact sectionKey contentField entryName inp [(field, v)] =
      { mdWrite := none,
        jsonWrite := some (update_json_target_path inp.layers inp.wdSupplied sectionKey entryName,
          setSectionEntry
            (get_config_for_path inp.layers
              (update_json_target_path inp.layers inp.wdSupplied sectionKey entryName))
            sectionKey entryName
            (JValue.obj (insertA (existing_section_entry inp.layers sectionKey entryName)
              field v))),
        promptWrites := [], err := none } := by
  have hne := isEmpty_false_of_containsA hin
  simp [update_artifact, runFields, stepField, hv, hf, hin, hne]

theorem update_md_only_skips_json (sectionKey contentField entryName : String)
    (inp : UpdateInput) (updates : List (String × JValue))
    (hmd : inp.mdExists = true)
    (hempty : existing_section_entry inp.layers sectionKey entryName = []) :
    (update_artifact sectionKey contentField entryName inp updates).jsonWrite = none := by
  simp only [update_artifact, hmd, hempty]
  split
  · rfl
  · simp

/-- C1 (amended): if a field named in the updates — other than the content
field, with a non-null value — already exists in the artifact's JSON section,
the update stores it in the JSON section and performs no Markdown write; and
if the updated fields exist only in the front-matter of an existing Markdown
source while the JSON section previously had no fields, no JSON document is
written.  (As originally stated the claim fails for the content field, see
the counterexample.) -/
theorem c1_field_placement_amended :
    (∀ (name : String) (inp : UpdateInput) (field : String) (v : JValue),
      field ≠ "prompt" → v.isNull = false →
      containsA (existing_section_entry inp.layers "agent" name) field = true →
      update_agent name inp [(field, v)] =
        { mdWrite := none,
          jsonWrite := some (update_json_target_path inp.layers inp.wdSupplied "agent" name,
            setSectionEntry
              (get_config_for_path inp.layers
                (update_json_target_path inp.layers inp.wdSupplied "agent" name))
              "agent" name
              (JValue.obj (insertA (existing_section_entry inp.layers "agent" name) field v))),
          promptWrites := [], err := none }) ∧
    (∀ (name : String) (inp : UpdateInput) (field : String) (v : JValue),
      field ≠ "template" → v.isNull = false →
      containsA (existing_section_entry inp.layers "command" name) field = true →
      update_command name inp [(field, v)] =
        { mdWrite := none,
          jsonWrite := some (update_json_target_path inp.layers inp.wdSupplied "command" name,
            setSectionEntry
              (get_config_for_path inp.layers
                (update_json_target_path inp.layers inp.wdSupplied "command" name))
              "command" name
              (JValue.obj (insertA (existing_section_entry inp.layers "command" name) field v))),
          promptWrites := [], err := none }) ∧
    (∀ (name : String) (inp : UpdateInput) (updates : List (String × JValue)),
      inp.mdExists = true →
      existing_section_entry inp.layers "agent" name = [] →
      (∀ p ∈ updates, containsA inp.mdFile.frontmatter p.1 = true) →
      (update_agent name inp updates).jsonWrite = none) ∧
    (∀ (name : String) (inp : UpdateInput) (updates : List (String × JValue)),
      inp.mdExists = true →
      existing_section_entry inp.layers "command" name = [] →
      (∀ p ∈ updates, containsA inp.mdFile.frontmatter p.1 = true) →
      (update_command name inp updates).jsonWrite = none) :=
  ⟨fun name inp field v hf hv hin =>
      update_single_json_field "agent" "prompt" name inp field v hf hv hin,
    fun name inp field v hf hv hin =>
      update_single_json_field "command" "template" name inp field v hf hv hin,
    fun name inp updates hmd hempty _ =>
      update_md_only_skips_json "agent" "prompt" name inp updates hmd hempty,
    fun name inp updates hmd hempty _ =>
      update_md_only_skips_json "command" "template" name inp updates hmd hempty⟩

/-- C1 counterexample: the field `prompt` exists in agent `a`'s JSON section
and a Markdown file exists; updating `prompt` writes the Markdown body and
does not touch the JSON document, contrary to the claim that a field already
present in the JSON section is updated there with no Markdown write. -/
theorem c1_field_placement_counterexample :
    containsA (existing_section_entry layersCex1 "agent" "a") "prompt" = true ∧
    (update_agent "a" inpCex1 [("prompt", JValue.str "new")]).mdWrite =
      some ("/h/.config/opencode/agents/a.md", { frontmatter := [], body := "new" }) ∧
    (update_agent "a" inpCex1 [("prompt", JValue.str "new")]).jsonWrite = none :=
  ⟨rfl, rfl, rfl⟩

theorem c1_field_placement_witness :
    ("model" : String) ≠ "prompt" ∧
    (JValue.str "b").isNull = false ∧
    containsA (existing_section_entry layersW1 "agent" "a") "model" = true ∧
    update_agent "a" inpW1 [("model", JValue.str "b")] =
      { mdWrite := none,
        jsonWrite := some ("/u.json",
          JValue.obj [("agent", JValue.obj [("a",
            JValue.obj [("model", JValue.str "b")])])]),
        promptWrites := [], err := none } := by
  refine ⟨by decide, rfl, rfl, ?_⟩
  exact (c1_field_placement_amended.1 "a" inpW1 "model" (JValue.str "b")
    (by decide) rfl rfl).trans rfl

theorem update_content_field_reference (sectionKey contentField entryName : String)
    (inp : UpdateInput) (v : JValue) (r : String)
    (hmd : inp.mdExists = false)
    (href : lookupA (existing_section_entry inp.layers sectionKey entryName) contentField =
      some (JValue.str r))
    (hisref : is_prompt_file_reference r = true)
    (hv : v.isNull = false) :
    (∀ p, resolve_prompt_file_path inp.home r = some p →
      update_artifact sectionKey contentField entryName inp [(contentField, v)] =
        { mdWrite := none, jsonWrite := none,
          promptWrites := [(p, v.asStr.getD "")], err := none }) ∧
    (resolve_prompt_file_path inp.home r = none →
      update_artifact sectionKey contentField entryName inp [(contentField, v)] =
        { mdWrite := none, jsonWrite := none, promptWrites := [],
          err := some "invalid file reference" }) := by
  have hin : containsA (existing_section_entry inp.layers sectionKey entryName)
      contentField = true := by
    simp [containsA, href]
  have hne := isEmpty_false_of_containsA hin
  constructor
  · intro p hp
    simp [update_artifact, runFields, stepField, hmd, hv, hne, href, hisref, hp,
      JValue.asStr]
  · intro hp
    simp [update_artifact, runFields, stepField, hmd, hv, hne, href, hisref, hp,
      JValue.asStr]

/-- C6: updating the content field (`prompt` for agents, `template` for
commands) of an artifact with no Markdown source and a non-empty JSON section,
whose current JSON value for that field is a `\x7bfile:...\x7d` indirection
reference, overwrites the referenced file's contents and leaves the JSON
document untouched; a reference whose path resolves to nothing yields an
error.  Resolution sends absolute targets through unchanged and puts relative
targets (with a leading `./` stripped) under the user config root. -/
theorem c6_content_indirection :
    (∀ (name : String) (inp : UpdateInput) (v : JValue) (r : String),
      inp.mdExists = false →
      lookupA (existing_section_entry inp.layers "agent" name) "prompt" =
        some (JValue.str r) →
      is_prompt_file_reference r = true → v.isNull = false →
      (∀ p, resolve_prompt_file_path inp.home r = some p →
        update_agent name inp [("prompt", v)] =
          { mdWrite := none, jsonWrite := none,
            promptWrites := [(p, v.asStr.getD "")], err := none }) ∧
      (resolve_prompt_file_path inp.home r = none →
        update_agent name inp [("prompt", v)] =
          { mdWrite := none, jsonWrite := none, promptWrites := [],
            err := some "invalid file reference" })) ∧
    (∀ (name : String) (inp : UpdateInput) (v : JValue) (r : String),
      inp.mdExists = false →
      lookupA (existing_section_entry inp.layers "command" name) "template" =
        some (JValue.str r) →
      is_prompt_file_reference r = true → v.isNull = false →
      (∀ p, resolve_prompt_file_path inp.home r = some p →
        update_command name inp [("template", v)] =
          { mdWrite := none, jsonWrite := none,
            promptWrites := [(p, v.asStr.getD "")], err := none }) ∧
      (resolve_prompt_file_path inp.home r = none →
        update_command name inp [("template", v)] =
          { mdWrite := none, jsonWrite := none, promptWrites := [],
            err := some "invalid file reference" })) ∧
    (∀ (home r target : String) (mid : List Char),
      refMid (strTrim r).data = some mid → strTrim (String.mk mid) = target →
      strStartsWith target "./" = false → strStartsWith target "/" = true →
      resolve_prompt_file_path home r = some target) ∧
    (∀ (home r target : String) (mid : List Char),
      refMid (strTrim r).data = some mid → strTrim (String.mk mid) = target →
      target ≠ "" → strStartsWith target "./" = false → strStartsWith target "/" = false →
      resolve_prompt_file_path home r = some (get_config_dir home ++ "/" ++ target)) ∧
    (∀ (home r target : String) (mid : List Char),
      refMid (strTrim r).data = some mid → strTrim (String.mk mid) = target →
      strStartsWith target "./" = true → strStartsWith (strDrop target 2) "/" = false →
      resolve_prompt_file_path home r = some (get_config_dir home ++ "/" ++ strDrop target 2)) := by
  refine ⟨fun name inp v r hmd href hisref hv =>
      update_content_field_reference "agent" "prompt" name inp v r hmd href hisref hv,
    fun name inp v r hmd href hisref hv =>
      update_content_field_reference "command" "template" name inp v r hmd href hisref hv,
    ?_, ?_, ?_⟩
  · intro home r target mid hmid htarget hdot habs
    have hne : ¬(target = "") := by
      intro h
      rw [h] at habs
      exact absurd habs (by decide)
    simp [resolve_prompt_file_path, hmid, htarget, hne, hdot, habs]
  · intro home r target mid hmid htarget hne hdot habs
    simp [resolve_prompt_file_path, pathJoin, hmid, htarget, hne, hdot, habs]
  · intro home r target mid hmid htarget hdot habs
    have hne : ¬(target = "") := by
      intro h
      rw [h] at hdot
      exact absurd hdot (by decide)
    simp [resolve_prompt_file_path, pathJoin, hmid, htarget, hne, hdot, habs]

theorem c6_content_indirection_witness :
    inpW6.mdExists = false ∧
    lookupA (existing_section_entry layersW6 "agent" "a") "prompt" =
      some (JValue.str "\x7bfile:p.txt\x7d") ∧
    is_prompt_file_reference "\x7bfile:p.txt\x7d" = true ∧
    resolve_prompt_file_path "/h" "\x7bfile:p.txt\x7d" = some "/h/.config/opencode/p.txt" ∧
    update_agent "a" inpW6 [("prompt", JValue.str "new")] =
      { mdWrite := none, jsonWrite := none,
        promptWrites := [("/h/.config/opencode/p.txt", "new")], err := none } := by
  refine ⟨rfl, rfl, by decide, by decide, ?_⟩
  exact ((c6_content_indirection.1 "a" inpW6 (JValue.str "new") "\x7bfile:p.txt\x7d"
    rfl rfl (by decide) rfl).1 "/h/.config/opencode/p.txt" (by decide)).trans rfl

theorem str_data_append (a b : String) : (a ++ b).data = a.data ++ b.data := by
  cases a
  cases b
  rfl

theorem str_mk_data (s : String) : String.mk s.data = s := rfl

theorem data_str_mk (l : List Char) : (String.mk l).data = l := rfl

theorem trimChars_cons_newline (l : List Char) : trimChars ('\n' :: l) = trimChars l := by
  unfold trimChars
  rw [List.dropWhile_cons_of_pos (by decide : Char.isWhitespace '\n' = true)]

theorem findSplit_append (pre tail : List Char) (r : List Char)
    (hpre : ∀ j, j < pre.length → matchSep (List.drop j (pre ++ tail)) = none)
    (htail : matchSep tail = some r) (hne : tail ≠ []) :
    findSplit (pre ++ tail) = some (pre, r) := by
  induction pre with
  | nil =>
    rcases tail with _ | ⟨c, cs⟩
    · exact absurd rfl hne
    · simp [findSplit, htail]
  | cons c cs ih =>
    have h0 : matchSep (c :: (cs ++ tail)) = none := by
      have h := hpre 0 (by simp)
      simpa using h
    have hpre2 : ∀ j, j < cs.length → matchSep (List.drop j (cs ++ tail)) = none := by
      intro j hj
      have h := hpre (j + 1) (by simpa using Nat.succ_lt_succ hj)
      simpa [List.drop_succ_cons] using h
    simp [findSplit, h0, ih hpre2]

/-- C5: for a front-matter mapping with no explicit-null values and any body,
writing the Markdown file and parsing it back recovers the same mapping and
the body trimmed of surrounding whitespace — given that the abstract YAML
codec round-trips the mapping, ends its output with a newline, and that
output contains no front-matter terminator of its own (which holds of the
real encoder, whose block output never emits a bare `---` line). -/
theorem c5_md_roundtrip (enc : List (String × JValue) → String)
    (dec : String → Option (List (String × JValue)))
    (fm : List (String × JValue)) (body yamlCore : String)
    (hnull : ∀ p ∈ fm, p.2.isNull = false)
    (henc : enc fm = yamlCore ++ "\n")
    (hdec : dec yamlCore = some fm)
    (hsep : ∀ j, j < yamlCore.data.length →
      matchSep (List.drop j ((yamlCore ++ "\n---\n\n" ++ body).data)) = none) :
    parse_md_file dec (write_md_file enc fm body) =
      { frontmatter := fm, body := strTrim body } := by
  have hfil : fm.filter (fun p => !p.2.isNull) = fm := by
    apply List.filter_eq_self.mpr
    intro p hp
    rw [hnull p hp]
    rfl
  have hd1 : ("---\n" : String).data = ['-', '-', '-', '\n'] := rfl
  have hd3 : ("\n---\n\n" : String).data = ['\n', '-', '-', '-', '\n', '\n'] := rfl
  have hcontent : (write_md_file enc fm body).data =
      '-' :: '-' :: '-' :: '\n' :: (yamlCore.data ++
        ('\n' :: '-' :: '-' :: '-' :: '\n' :: '\n' :: body.data)) := by
    simp [write_md_file, hfil, henc, str_data_append, hd1,
      show ("\n" : String).data = ['\n'] from rfl,
      show ("---\n\n" : String).data = ['-', '-', '-', '\n', '\n'] from rfl,
      List.append_assoc]
  have hdata : (yamlCore ++ "\n---\n\n" ++ body).data =
      yamlCore.data ++ ('\n' :: '-' :: '-' :: '-' :: '\n' :: '\n' :: body.data) := by
    simp [str_data_append, hd3, List.append_assoc]
  have hfind : findSplit (yamlCore.data ++
      ('\n' :: '-' :: '-' :: '-' :: '\n' :: '\n' :: body.data)) =
      some (yamlCore.data, '\n' :: body.data) := by
    apply findSplit_append
    · intro j hj
      have h := hsep j hj
      rwa [hdata] at h
    · rfl
    · simp
  simp only [parse_md_file, hcontent, dropNewline, hfind, str_mk_data, hdec,
    Option.getD_some]
  simp [strTrim, data_str_mk, trimChars_cons_newline]

theorem c5_md_roundtrip_witness :
    (∀ p ∈ sampleFm, p.2.isNull = false) ∧
    sampleYamlEnc sampleFm = "description: x" ++ "\n" ∧
    sampleYamlDec "description: x" = some sampleFm ∧
    parse_md_file sampleYamlDec (write_md_file sampleYamlEnc sampleFm "hello") =
      { frontmatter := sampleFm, body := strTrim "hello" } := by
  refine ⟨by decide, rfl, rfl, ?_⟩
  exact c5_md_roundtrip sampleYamlEnc sampleYamlDec sampleFm "hello" "description: x"
    (by decide) rfl rfl (by decide)

/-- C8 (amended): `delete_skill` removes the resolved project-native skill
directory (the legacy singular one only when the plural is absent), the
Claude-compatibility directory, and both user-level directories (plural and
legacy singular), for every such location present; in particular when both
project-native directories exist only the plural one is removed and the
legacy singular remains, and a NotFound error is returned iff no removal
applied.  (As originally stated — every location where the skill is found is
removed — the claim fails when both project-native directories exist, see the
counterexample.) -/
theorem c8_delete_skill_amended :
    ∀ (home : String) (wd : Option String) (fs : String → Bool) (name : String),
      (∀ w, wd = some w →
        project_skill_plural_dir w name ≠ user_skill_plural_dir home name ∧
        project_skill_plural_dir w name ≠ user_skill_legacy_dir home name ∧
        project_skill_legacy_dir w name ≠ user_skill_plural_dir home name ∧
        project_skill_legacy_dir w name ≠ user_skill_legacy_dir home name ∧
        get_claude_skill_dir w name ≠ user_skill_plural_dir home name ∧
        get_claude_skill_dir w name ≠ user_skill_legacy_dir home name) →
      delete_skill home wd fs name =
        (let removed :=
          (match wd with
           | some w =>
             (if fs (project_skill_plural_dir w name) then [project_skill_plural_dir w name]
              else if fs (project_skill_legacy_dir w name) then
                [project_skill_legacy_dir w name]
              else []) ++
             (if fs (get_claude_skill_dir w name) then [get_claude_skill_dir w name] else [])
           | none => []) ++
          ((if fs (user_skill_plural_dir home name) then [user_skill_plural_dir home name]
            else []) ++
           (if fs (user_skill_legacy_dir home name) then [user_skill_legacy_dir home name]
            else []));
        if removed.isEmpty then { removedDirs := [], err := some "Skill not found" }
        else { removedDirs := removed, err := none }) := by
  intro home wd fs name hcross
  have hUne := user_skill_legacy_ne_plural_dir home name
  rcases wd with _ | w
  · cases hUP : fs (user_skill_plural_dir home name) <;>
      cases hUL : fs (user_skill_legacy_dir home name) <;>
        simp [delete_skill, get_user_skill_dir, fsRemove, hUP, hUL, hUne, Ne.symm hUne]
  · obtain ⟨h1, h2, h3, h4, h5, h6⟩ := hcross w rfl
    have hPne := project_skill_legacy_ne_plural_dir w name
    have hCP := claude_skill_ne_project_plural w name
    have hCL := claude_skill_ne_project_legacy w name
    cases hPP : fs (project_skill_plural_dir w name) <;>
      cases hPL : fs (project_skill_legacy_dir w name) <;>
        cases hC : fs (get_claude_skill_dir w name) <;>
          cases hUP : fs (user_skill_plural_dir home name) <;>
            cases hUL : fs (user_skill_legacy_dir home name) <;>
              simp [delete_skill, get_project_skill_dir, get_user_skill_dir, fsRemove,
                hPP, hPL, hC, hUP, hUL,
                hPne, Ne.symm hPne, hCP, Ne.symm hCP, hCL, Ne.symm hCL,
                hUne, Ne.symm hUne,
                h1, Ne.symm h1, h2, Ne.symm h2, h3, Ne.symm h3,
                h4, Ne.symm h4, h5, Ne.symm h5, h6, Ne.symm h6]

/-- C8 counterexample: the skill `s` is found at both the plural and the
legacy singular project-native locations, yet `delete_skill` removes only the
plural directory and reports success — the legacy singular directory is a
location where the skill was found but is not removed. -/
theorem c8_delete_skill_counterexample :
    fsCex8 (project_skill_legacy_dir "/w" "s") = true ∧
    delete_skill "/h" (some "/w") fsCex8 "s" =
      { removedDirs := ["/w/.opencode/skills/s"], err := none } ∧
    "/w/.opencode/skill/s" ∉ (delete_skill "/h" (some "/w") fsCex8 "s").removedDirs := by
  refine ⟨by decide, rfl, by decide⟩

theorem c8_delete_skill_amended_witness :
    delete_skill "/h" (some "/w") fsCex8 "s" =
      { removedDirs := ["/w/.opencode/skills/s"], err := none } := by
  have h := c8_delete_skill_amended "/h" (some "/w") fsCex8 "s" (fun w hw => by
    cases hw
    exact ⟨by decide, by decide, by decide, by decide, by decide, by decide⟩)
  exact h.trans rfl
